import Mathlib

/-!
Verification of the course-data validation engine: a shallow embedding of
`validators.py` (class `CourseValidators`), `io_file.py` (class
`ExcelFileHandler`) and the dataset loop of `main.py` (`run_validation`),
with theorems about the field validators, the value cleaner, the column
normalizer and the row/dataset orchestrator.

Cell text is modelled as `List Char`; a cell value is `Option (List Char)`
(`none` models a missing value, pandas `NaN`).  Python functions that can
raise on some inputs return `Option`, with `none` modelling the raised
exception.  Character classification (`isupper`, `lower`, whitespace)
is embedded at ASCII scope, which is the data domain of the validated
spreadsheets.  External collaborators (the URL parser and the network
probe of `requests.head`) are parameters of the embedding.
-/

/-- Cell text: a Python `str` as a list of characters. -/
abbrev Str := List Char

/-- Shorthand turning a Lean string literal into embedded cell text. -/
def str (s : String) : Str := s.data

/-- A cell value: `none` models pandas `NaN` (missing), `some s` a string. -/
abbrev Value := Option Str

/-- ASCII decimal digit test (`str.isdigit` on the characters at hand). -/
def isDigitCh (c : Char) : Bool := 48 ≤ c.toNat && c.toNat ≤ 57

/-- ASCII uppercase-letter test, the embedding of Python's `str.isupper`
on a single character of the ASCII data domain. -/
def isUpperCh (c : Char) : Bool := 65 ≤ c.toNat && c.toNat ≤ 90

/-- ASCII lowercase conversion of one character, the embedding of Python's
`str.lower` at character level on the ASCII data domain. -/
def toLowerCh (c : Char) : Char :=
  if isUpperCh c then Char.ofNat (c.toNat + 32) else c

/-- Python `str.lower` over the whole text. -/
def lowerStr (s : Str) : Str := s.map toLowerCh

/-- Python's whitespace set for `str.strip`/`str.split` at ASCII scope:
space, tab, newline, carriage return, vertical tab, form feed. -/
def isSpaceCh (c : Char) : Bool :=
  c.toNat = 32 || c.toNat = 9 || c.toNat = 10 || c.toNat = 13 ||
  c.toNat = 11 || c.toNat = 12

/-- Drop leading characters satisfying `p` (left half of `str.strip`). -/
def dropLead (p : Char → Bool) : Str → Str
  | [] => []
  | c :: cs => if p c then dropLead p cs else c :: cs

/-- Python `str.strip()`: remove leading and trailing whitespace. -/
def stripWs (s : Str) : Str :=
  ((dropLead isSpaceCh ((dropLead isSpaceCh s).reverse)).reverse)

/-- Python `s.split(sep)` for a one-character separator: the pieces between
occurrences of `sep`, empty pieces kept (`"".split(',') == ['']`). -/
def splitChar (sep : Char) : Str → List Str
  | [] => [[]]
  | c :: cs =>
    if c = sep then [] :: splitChar sep cs
    else
      match splitChar sep cs with
      | [] => [[c]]
      | h :: t => (c :: h) :: t

/-- Python `sep in s` for a single character. -/
def containsChar (sep : Char) (s : Str) : Bool := s.any (· = sep)

/-- Does `s` begin with `pat`?  Embeds Python `s.startswith(pat)`. -/
def beginsWith : Str → Str → Bool
  | [], _ => true
  | _ :: _, [] => false
  | p :: ps, c :: cs => p = c && beginsWith ps cs

/-- Python `pat in s`: `pat` occurs as a contiguous substring of `s`. -/
def containsSub (pat : Str) : Str → Bool
  | [] => beginsWith pat []
  | c :: cs => beginsWith pat (c :: cs) || containsSub pat cs

/-- Python `s.split()` with no argument: split on whitespace runs and drop
the empty pieces. -/
def wordsOf (s : Str) : List Str :=
  ((s.splitOnP isSpaceCh).filter (fun w => !w.isEmpty))

/-- Join pieces with a separator, Python `sep.join(pieces)`. -/
def joinSep (sep : Str) : List Str → Str
  | [] => []
  | [x] => x
  | x :: y :: t => x ++ sep ++ joinSep sep (y :: t)

/-- Decimal rendering of a number, as Python string formatting prints it. -/
def natStr (n : Nat) : Str := Nat.toDigits 10 n

/-- Numeric value of a run of decimal digits. -/
def digitsToNat (s : Str) : Nat :=
  s.foldl (fun acc c => acc * 10 + (c.toNat - 48)) 0

/-! ### Python `float()` acceptance

`validate_institution_id` and `validate_course_id` test numericity with
`float(str(value))`.  `pyFloatDigits` consumes a Python digit group
(decimal digits with single underscores allowed only between two digits)
and returns how many digits it consumed together with the rest. -/

/-- Consume a maximal Python digit group.  The flag records whether the
previous consumed character was a digit (an underscore is legal only
between two digits). -/
def pyFloatDigits : Bool → Str → Nat × Str
  | _, [] => (0, [])
  | prev, c :: cs =>
    if isDigitCh c then
      let r := pyFloatDigits true cs
      (r.1 + 1, r.2)
    else if c = '_' && prev then
      match cs with
      | d :: _ =>
        if isDigitCh d then pyFloatDigits false cs else (0, c :: cs)
      | [] => (0, c :: cs)
    else (0, c :: cs)

/-- The finite-number grammar of Python `float` after the optional sign:
`digits [. digits] [exponent]` or `. digits [exponent]`, at least one
digit before the exponent, nothing left over. -/
def pyFloatFinite (s : Str) : Bool :=
  let intPart := pyFloatDigits false s
  let afterPoint :=
    match intPart.2 with
    | '.' :: rest =>
      let fracPart := pyFloatDigits false rest
      (intPart.1 + fracPart.1, fracPart.2)
    | _ => intPart
  if afterPoint.1 = 0 then false
  else
    match afterPoint.2 with
    | [] => true
    | e :: rest =>
      if e = 'e' || e = 'E' then
        let rest2 :=
          match rest with
          | c :: t => if c = '+' || c = '-' then t else rest
          | [] => rest
        let expPart := pyFloatDigits false rest2
        expPart.1 ≠ 0 && expPart.2 = []
      else false

/-- Embedding of Python `float(s)` succeeding: strip whitespace, optional
sign, then either a case-insensitive infinity/NaN word or a finite
number. -/
def isPyFloat (s : Str) : Bool :=
  let t := stripWs s
  let t2 :=
    match t with
    | c :: r => if c = '+' || c = '-' then r else t
    | [] => []
  if lowerStr t2 = str "inf" || lowerStr t2 = str "infinity" ||
     lowerStr t2 = str "nan" then true
  else pyFloatFinite t2

/-! ### The field validators of `CourseValidators` (validators.py) -/

/-- A validator's result: the `{'valid': ..., 'message': ...}` dict. -/
structure Verdict where
  valid : Bool
  message : Str
deriving DecidableEq

/-- Blank test used by most validators: `pd.isna(value) or value == ''`. -/
def isBlankRaw (v : Value) : Bool :=
  match v with
  | none => true
  | some s => s = []

/-- Blank test with stripping: `pd.isna(value) or str(value).strip() == ''`. -/
def isBlankStripped (v : Value) : Bool :=
  match v with
  | none => true
  | some s => stripWs s = []

/-- `CourseValidators.validate_institution_id` (validators.py:29-46). -/
def validate_institution_id (value : Value) : Verdict :=
  if isBlankRaw value then
    ⟨false, str "Institution Id cannot be blank"⟩
  else
    match value with
    | none => ⟨false, str "Institution Id cannot be blank"⟩
    | some s =>
      if isPyFloat s then ⟨true, str "Valid institution ID"⟩
      else ⟨false, str "Institution Id must be numeric"⟩

/-- Occurrences of `v` in a list, Python `list.count(v)`. -/
def countOcc (l : List Str) (v : Str) : Nat := (l.filter (· = v)).length

/-- `CourseValidators.validate_course_id` (validators.py:48-72): blank
check, then numeric check, then the dataset-wide uniqueness count. -/
def validate_course_id (value : Value) (all_course_ids : List Str) : Verdict :=
  if isBlankRaw value then
    ⟨false, str "Course Id cannot be blank"⟩
  else
    match value with
    | none => ⟨false, str "Course Id cannot be blank"⟩
    | some s =>
      if !isPyFloat s then ⟨false, str "Course Id must be numeric"⟩
      else if countOcc all_course_ids s > 1 then
        ⟨false, str "Course Id must be unique"⟩
      else ⟨true, str "Valid course ID"⟩

/-- The fixed conjunction list of `CourseValidators.__init__`
(validators.py:22-27). -/
def conjunctions : List Str :=
  [str "and", str "with", str "by", str "of", str "the", str "in",
   str "on", str "at", str "to", str "for", str "from", str "up",
   str "about", str "into", str "through", str "during", str "before",
   str "after", str "above", str "below", str "between", str "among",
   str "within", str "without", str "against", str "toward",
   str "towards", str "upon", str "under", str "over", str "across"]

/-- Is `w` a conjunction written with an uppercase first letter?  The body
of the loop condition in `validate_course_name`. -/
def isBadConjWord (w : Str) : Bool :=
  (conjunctions.contains (lowerStr w)) &&
  (match w with | c :: _ => isUpperCh c | [] => false)

/-- The enumerated loop of `validate_course_name`: the first word with
index `i > 0` whose lowercase form is a conjunction and whose first
character is uppercase. -/
def findBadConj : Nat → List Str → Option Str
  | _, [] => none
  | i, w :: ws =>
    if i > 0 && isBadConjWord w then some w else findBadConj (i + 1) ws

/-- `CourseValidators.validate_course_name` (validators.py:74-102).
The source checks `value == ''` without stripping, then evaluates
`course_name[0]` on the stripped text: on a whitespace-only value the
index raises `IndexError`, modelled as `none`. -/
def validate_course_name (value : Value) : Option Verdict :=
  if isBlankRaw value then
    some ⟨false, str "Course Name cannot be blank"⟩
  else
    match value with
    | none => some ⟨false, str "Course Name cannot be blank"⟩
    | some s =>
      match stripWs s with
      | [] => none
      | c :: cs =>
        if !isUpperCh c then
          some ⟨false, str "Course Name must start with capital letter"⟩
        else
          match findBadConj 0 (wordsOf (c :: cs)) with
          | some w =>
            some ⟨false,
              str "Conjunction \x22" ++ w ++ str "\x22 should be lowercase"⟩
          | none => some ⟨true, str "Valid course name"⟩

/-- `CourseValidators.validate_l3_tagging` (validators.py:104-117). -/
def validate_l3_tagging (value : Value) : Verdict :=
  if isBlankStripped value then ⟨false, str "L3 Tagging must not be blank"⟩
  else ⟨true, str "Valid L3 tagging"⟩

/-- `CourseValidators.validate_degree_type` (validators.py:119-132). -/
def validate_degree_type (value : Value) : Verdict :=
  if isBlankStripped value then ⟨false, str "Degree Type must not be blank"⟩
  else ⟨true, str "Valid degree type"⟩

/-- `CourseValidators.validate_course_type` (validators.py:134-147). -/
def validate_course_type (value : Value) : Verdict :=
  if isBlankStripped value then ⟨false, str "Course Type must not be blank"⟩
  else ⟨true, str "Valid course type"⟩

/-! ### Date parsing (`datetime.strptime(date, '%Y-%m-%d')`)

`strptime` with format `%Y-%m-%d` accepts exactly: four year digits, a
dash, a one- or two-digit month in 1..12, a dash, a one- or two-digit day
in 1..31, nothing else; the `datetime` constructor then requires year at
least 1 and the day to exist in that month of that year. -/

/-- Gregorian leap-year rule used by `datetime`. -/
def isLeapYear (y : Nat) : Bool :=
  y % 4 = 0 && (y % 100 ≠ 0 || y % 400 = 0)

/-- Days in a month as `datetime` knows them. -/
def daysInMonth (y m : Nat) : Nat :=
  if m = 2 then (if isLeapYear y then 29 else 28)
  else if m = 4 || m = 6 || m = 9 || m = 11 then 30
  else 31

/-- A month or day token of the `%m`/`%d` patterns: one or two decimal
digits whose value lies in the given range (the `strptime` regexes
`1[0-2]|0[1-9]|[1-9]` and `3[01]|[12]\d|0[1-9]|[1-9]` describe exactly
these token sets). -/
def numToken (lo hi : Nat) (s : Str) : Bool :=
  s.all isDigitCh && (s.length = 1 || s.length = 2) &&
  lo ≤ digitsToNat s && digitsToNat s ≤ hi

/-- Does `datetime.strptime(s, '%Y-%m-%d')` succeed?  The dash separators
fix the split, so the whole string must be `YYYY-M-D` with valid
calendar values. -/
def strptimeYMD (s : Str) : Bool :=
  match splitChar '-' s with
  | [y, m, d] =>
    y.length = 4 && y.all isDigitCh && digitsToNat y ≥ 1 &&
    numToken 1 12 m && numToken 1 31 d &&
    digitsToNat d ≤ daysInMonth (digitsToNat y) (digitsToNat m)
  | _ => false

/-- `CourseValidators.validate_course_start_date` (validators.py:149-176):
blank check on the stripped value, comma-split into individually
stripped components when a comma is present, and the first component
`strptime` rejects is named in the message. -/
def validate_course_start_date (value : Value) : Verdict :=
  if isBlankStripped value then
    ⟨false, str "Course start date cannot be blank"⟩
  else
    match value with
    | none => ⟨false, str "Course start date cannot be blank"⟩
    | some s =>
      let date_str := stripWs s
      let dates :=
        if containsChar ',' date_str then
          (splitChar ',' date_str).map stripWs
        else [date_str]
      match dates.find? (fun d => !strptimeYMD d) with
      | some d =>
        ⟨false, str "Invalid date format: " ++ d ++ str ". Must be YYYY-MM-DD"⟩
      | none => ⟨true, str "Valid course start date"⟩

/-! ### URL validation (`validate_course_level_url`)

The two external collaborators are parameters: `wf` embeds the
`urlparse` well-formedness test (`result.scheme` and `result.netloc`
both non-empty) and `probe` the outcome of
`requests.head(url, timeout=10, ...)`. -/

/-- Outcome of the network probe on one URL. -/
inductive ProbeOutcome where
  | status (code : Nat)
  | timeout
  | connError
deriving DecidableEq

/-- The error message the `elif` chain of `validate_course_level_url`
produces for one URL's probe outcome, `none` when the outcome is not
flagged (all statuses other than 404/410/500/502/503/504). -/
def urlErrMsg (u : Str) : ProbeOutcome → Option Str
  | .status n =>
    if n = 404 then some (str "URL returns 404 (Not Found): " ++ u)
    else if n = 410 then some (str "URL returns 410 (Gone): " ++ u)
    else if n = 500 then some (str "URL returns 500 (Server Error): " ++ u)
    else if n = 502 then some (str "URL returns 502 (Bad Gateway): " ++ u)
    else if n = 503 then
      some (str "URL returns 503 (Service Unavailable): " ++ u)
    else if n = 504 then
      some (str "URL returns 504 (Gateway Timeout): " ++ u)
    else none
  | .timeout => some (str "URL timeout (server not responding): " ++ u)
  | .connError =>
    some (str "URL connection error (server unreachable): " ++ u)

/-- The loop body of `validate_course_level_url` for one comma-separated
piece: strip, skip if empty, report a format error if `urlparse` finds
no scheme or host, otherwise report the probe's error if any. -/
def processUrl (wf : Str → Bool) (probe : Str → ProbeOutcome)
    (piece : Str) : List Str :=
  let u := stripWs piece
  if u = [] then []
  else if !wf u then [str "Invalid URL format: " ++ u]
  else
    match urlErrMsg u (probe u) with
    | some m => [m]
    | none => []

/-- `CourseValidators.validate_course_level_url` (validators.py:178-246):
blank check, split on commas, per-URL checks accumulated in order, all
error messages joined with `'; '`. -/
def validate_course_level_url (wf : Str → Bool)
    (probe : Str → ProbeOutcome) (value : Value) : Verdict :=
  if isBlankStripped value then
    ⟨false, str "Course Level URL cannot be blank"⟩
  else
    match value with
    | none => ⟨false, str "Course Level URL cannot be blank"⟩
    | some s =>
      let errors := (splitChar ',' s).flatMap (processUrl wf probe)
      if errors ≠ [] then ⟨false, joinSep (str "; ") errors⟩
      else ⟨true, str "All URLs are working"⟩

/-! ### Intake ids, show, status, study mode -/

/-- Comma-split into stripped non-empty components, the representation
both `validate_course_intake_ids` counts are built from. -/
def compsOf (s : Str) : List Str :=
  ((splitChar ',' s).map stripWs).filter (fun c => c ≠ [])

/-- `CourseValidators.validate_course_intake_ids` (validators.py:248-283).
The blank check tests only `pd.isna` (not emptiness); the date count
uses the comma-presence special case of the source. -/
def validate_course_intake_ids (intake_ids start_dates : Value) : Verdict :=
  match intake_ids, start_dates with
  | none, _ =>
    ⟨false, str "Course Intake IDs and Course start date cannot be blank"⟩
  | _, none =>
    ⟨false, str "Course Intake IDs and Course start date cannot be blank"⟩
  | some a, some b =>
    let intake_list := compsOf a
    let intake_count := intake_list.length
    let date_count :=
      if containsChar ',' b then (compsOf b).length
      else if stripWs b ≠ [] then 1 else 0
    if intake_count ≠ date_count then
      ⟨false,
        str "Intake IDs count (" ++ natStr intake_count ++
        str ") must match start dates count (" ++ natStr date_count ++
        str ")"⟩
    else if intake_list.length ≠ intake_list.dedup.length then
      ⟨false, str "Course Intake IDs must be unique"⟩
    else ⟨true, str "Valid course intake IDs"⟩

/-- `CourseValidators.validate_show` (validators.py:285-305). -/
def validate_show (value : Value) : Verdict :=
  if isBlankStripped value then ⟨false, str "Show field cannot be blank"⟩
  else
    match value with
    | none => ⟨false, str "Show field cannot be blank"⟩
    | some s =>
      let v := stripWs s
      if v = str "Yes" || v = str "No" then ⟨true, str "Valid show value"⟩
      else ⟨false, str "Show must be one of: Yes, No"⟩

/-- `CourseValidators.validate_course_status` (validators.py:307-338). -/
def validate_course_status (value : Value) : Verdict :=
  if isBlankStripped value then ⟨false, str "Course Status cannot be blank"⟩
  else
    match value with
    | none => ⟨false, str "Course Status cannot be blank"⟩
    | some s =>
      let v := stripWs s
      if containsChar ',' v then
        let statuses := (splitChar ',' v).map stripWs
        let bad := statuses.filter
          (fun t => t ≠ str "Open" && t ≠ str "Closed")
        if bad ≠ [] then
          ⟨false,
            str "Invalid status values: " ++ joinSep (str ", ") bad ++
            str ". Must be one of: Open, Closed"⟩
        else ⟨true, str "Valid course status"⟩
      else if v ≠ str "Open" && v ≠ str "Closed" then
        ⟨false, str "Course Status must be one of: Open, Closed"⟩
      else ⟨true, str "Valid course status"⟩

/-- `CourseValidators.validate_study_mode` (validators.py:340-360). -/
def validate_study_mode (value : Value) : Verdict :=
  if isBlankStripped value then ⟨false, str "Study Mode cannot be blank"⟩
  else
    match value with
    | none => ⟨false, str "Study Mode cannot be blank"⟩
    | some s =>
      let v := stripWs s
      if v = str "Full time" || v = str "Part time" then
        ⟨true, str "Valid study mode"⟩
      else ⟨false, str "Study Mode must be one of: Full time, Part time"⟩

/-! ### The value cleaner (`ExcelFileHandler.clean_data`, io_file.py) -/

/-- The replacement list of `clean_data`
(io_file.py:179: `replace(['NULL', 'NUL', 'null', 'nul'], '')`). -/
def nullMarkers : List Str := [str "NULL", str "NUL", str "null", str "nul"]

/-- Cell-level effect of the `replace` call: a cell equal to one of the
four markers becomes the empty string, every other cell is untouched
(pandas `replace` with a list matches whole cell values exactly). -/
def replaceNullMarkers (cell : Str) : Str :=
  if cell ∈ nullMarkers then [] else cell

/-- Does a `YYYY-MM-DD`-shaped substring start at the head of `cs`?  The
head test of the regex `(\d{4}-\d{2}-\d{2})`. -/
def dateAtHead (cs : Str) : Bool :=
  match cs with
  | a :: b :: c :: d :: s1 :: e :: f :: s2 :: g :: h :: _ =>
    isDigitCh a && isDigitCh b && isDigitCh c && isDigitCh d &&
    s1 = '-' && isDigitCh e && isDigitCh f && s2 = '-' &&
    isDigitCh g && isDigitCh h
  | _ => false

/-- `re.search(r'(\d{4}-\d{2}-\d{2})', s)`: the match at the leftmost
position where the ten-character shape fits. -/
def firstDateSub : Str → Option Str
  | [] => none
  | c :: cs =>
    if dateAtHead (c :: cs) then some ((c :: cs).take 10)
    else firstDateSub cs

/-- `ExcelFileHandler._clean_date_format` (io_file.py:199-213): empty in,
empty out; otherwise strip, return the first `YYYY-MM-DD` match if one
exists, else the stripped text. -/
def clean_date_format (s : Str) : Str :=
  if s = [] then []
  else
    let t := stripWs s
    match firstDateSub t with
    | some m => m
    | none => t

/-- `ExcelFileHandler._normalize_study_mode` (io_file.py:215-227): empty
in, empty out; otherwise strip, then the case-insensitive `full` rule
before the `part` rule, else the stripped text. -/
def normalize_study_mode (m : Str) : Str :=
  if m = [] then []
  else
    let t := stripWs m
    if containsSub (str "full") (lowerStr t) then str "Full time"
    else if containsSub (str "part") (lowerStr t) then str "Part time"
    else t

/-! ### The column normalizer (`ExcelFileHandler.normalize_column_names`) -/

/-- The canonical field list `expected_columns` (io_file.py:18-36). -/
def expectedColumns : List Str :=
  [str "Institution Id", str "Course Id", str "Course Type",
   str "Degree Type", str "Course Name", str "L3 Tagging",
   str "Course Intake Ids", str "Course start date",
   str "Course Level Tuition Fees", str "Application Fees",
   str "Application Deadline Date", str "Course Level URL",
   str "Course Status", str "Show", str "Study Mode",
   str "Previous Education", str "Commissionable"]

/-- The `variations` table of `normalize_column_names` (io_file.py:129-142)
in its declared order. -/
def variations : List (Str × Str) :=
  [(str "Instituti", str "Institution Id"),
   (str "Course I", str "Course Id"),
   (str "Course TDegree", str "Degree Type"),
   (str "Course", str "Course Name"),
   (str "L3 Taggi", str "L3 Tagging"),
   (str "Course sCourse", str "Course start date"),
   (str "LApplicati", str "Course Level Tuition Fees"),
   (str "Applicati", str "Application Fees"),
   (str "Course LCourse SShow", str "Course Level URL"),
   (str "Study M", str "Study Mode"),
   (str "Previous", str "Previous Education"),
   (str "Commissionable", str "Commissionable")]

/-- `ExcelFileHandler.normalize_column_names` for one header
(io_file.py:144-161): exact canonical match passes through; otherwise
the first variation with `col.startswith(variation) or variation in col`
wins; otherwise the header passes through. -/
def normalizeColumn (col : Str) : Str :=
  if expectedColumns.contains col then col
  else
    match variations.find?
        (fun p => beginsWith p.1 col || containsSub p.1 col) with
    | some p => p.2
    | none => col

/-! ### The orchestrator (`validate_all_fields` and `run_validation`) -/

/-- One reported rule violation: the error dict appended by
`validate_all_fields`. -/
structure ErrorRecord where
  row : Nat
  column : Str
  error_type : Str
  message : Str
  value : Str
deriving DecidableEq

/-- A row as `row.to_dict()`: the headers present with their cell values. -/
abbrev RowMap := List (Str × Value)

/-- Dictionary lookup, Python `row['X']` guarded by `'X' in row`. -/
def lookupRow : RowMap → Str → Option Value
  | [], _ => none
  | (k, v) :: t, key => if k = key then some v else lookupRow t key

/-- `str(row['X'])` as stored in an error's `value` field: `NaN` prints as
`nan`. -/
def strOfValue : Value → Str
  | none => str "nan"
  | some s => s

/-- The per-field step of `validate_all_fields`: skip an absent column,
run the field's validator, propagate its exception, and append one
error record when the verdict is invalid. -/
def segErrs (row_index : Nat) (key : Str) (present : Option Value)
    (f : Value → Option Verdict) (etype : Str → Str) :
    Option (List ErrorRecord) :=
  match present with
  | none => some []
  | some v =>
    match f v with
    | none => none
    | some r =>
      some (if r.valid then []
        else [⟨row_index + 1, key, etype r.message, r.message, strOfValue v⟩])

/-- The `error_type` choice of the Course Id branch
(validators.py:395): `'Unique' if 'unique' in message.lower() else
'Numeric'`. -/
def courseIdType (msg : Str) : Str :=
  if containsSub (str "unique") (lowerStr msg) then str "Unique"
  else str "Numeric"

def kInstitutionId : Str := str "Institution Id"

def kCourseId : Str := str "Course Id"

def kCourseName : Str := str "Course Name"

def kL3Tagging : Str := str "L3 Tagging"

def kDegreeType : Str := str "Degree Type"

def kCourseType : Str := str "Course Type"

def kCourseStartDate : Str := str "Course start date"

def kCourseLevelURL : Str := str "Course Level URL"

def kCourseIntakeIds : Str := str "Course Intake Ids"

def kShow : Str := str "Show"

def kCourseStatus : Str := str "Course Status"

def kStudyMode : Str := str "Study Mode"

/-- `CourseValidators.validate_all_fields` (validators.py:362-520): each
present field contributes at most one error record, in source order;
an exception in a field validator propagates (`none`). -/
def validate_all_fields (wf : Str → Bool) (probe : Str → ProbeOutcome)
    (row : RowMap) (row_index : Nat) (all_course_ids : List Str) :
    Option (List ErrorRecord) := do
  let e1 ← segErrs row_index kInstitutionId (lookupRow row kInstitutionId)
    (fun v => some (validate_institution_id v)) (fun _ => str "Numeric")
  let e2 ← segErrs row_index kCourseId (lookupRow row kCourseId)
    (fun v => some (validate_course_id v all_course_ids)) courseIdType
  let e3 ← segErrs row_index kCourseName (lookupRow row kCourseName)
    validate_course_name (fun _ => str "Capitalization")
  let e4 ← segErrs row_index kL3Tagging (lookupRow row kL3Tagging)
    (fun v => some (validate_l3_tagging v)) (fun _ => str "Blank")
  let e5 ← segErrs row_index kDegreeType (lookupRow row kDegreeType)
    (fun v => some (validate_degree_type v)) (fun _ => str "Blank")
  let e6 ← segErrs row_index kCourseType (lookupRow row kCourseType)
    (fun v => some (validate_course_type v)) (fun _ => str "Blank")
  let e7 ← segErrs row_index kCourseStartDate (lookupRow row kCourseStartDate)
    (fun v => some (validate_course_start_date v)) (fun _ => str "Date")
  let e8 ← segErrs row_index kCourseLevelURL (lookupRow row kCourseLevelURL)
    (fun v => some (validate_course_level_url wf probe v)) (fun _ => str "URL")
  let e9 ← segErrs row_index kCourseIntakeIds
    (match lookupRow row kCourseIntakeIds, lookupRow row kCourseStartDate with
     | some a, some _ => some a
     | _, _ => none)
    (fun v => some (validate_course_intake_ids v
      ((lookupRow row kCourseStartDate).join)))
    (fun _ => str "Count")
  let e10 ← segErrs row_index kShow (lookupRow row kShow)
    (fun v => some (validate_show v)) (fun _ => str "Status")
  let e11 ← segErrs row_index kCourseStatus (lookupRow row kCourseStatus)
    (fun v => some (validate_course_status v)) (fun _ => str "Status")
  let e12 ← segErrs row_index kStudyMode (lookupRow row kStudyMode)
    (fun v => some (validate_study_mode v)) (fun _ => str "Status")
  return e1 ++ e2 ++ e3 ++ e4 ++ e5 ++ e6 ++ e7 ++ e8 ++ e9 ++ e10 ++
    e11 ++ e12

/-- `all_course_ids` of `main.run_validation`:
`df['Course Id'].dropna().tolist()` — every present, non-`NaN` Course Id
cell of the dataset. -/
def allCourseIds (rows : List RowMap) : List Str :=
  rows.filterMap (fun r =>
    match lookupRow r kCourseId with
    | some (some s) => some s
    | _ => none)

/-- The body of the row loop of `main.run_validation`: validate the rows
in order, starting at index `i`, extending the error list row by row;
a row whose validation raises aborts the run. -/
def validateRows (wf : Str → Bool) (probe : Str → ProbeOutcome)
    (ids : List Str) (i : Nat) : List RowMap → Option (List ErrorRecord)
  | [] => some []
  | r :: rs => do
    let e ← validate_all_fields wf probe r i ids
    let rest ← validateRows wf probe ids (i + 1) rs
    return e ++ rest

/-- The row loop of `main.run_validation` without the UI: compute
`all_course_ids` once, then validate each row in order against it and
accumulate the error records. -/
def validateDataset (wf : Str → Bool) (probe : Str → ProbeOutcome)
    (rows : List RowMap) : Option (List ErrorRecord) :=
  validateRows wf probe (allCourseIds rows) 0 rows

/-! ### Spec-side definitions used by the claim theorems -/

/-- Defined from the amended column-normalization rule: exact canonical
match passes through, otherwise the first variation whose variant text
is contained in the header wins, otherwise the header passes through. -/
def normalizeColumnSpec (col : Str) : Str :=
  if expectedColumns.contains col then col
  else
    match variations.find? (fun p => containsSub p.1 col) with
    | some p => p.2
    | none => col

/-- Defined from the claim's wording of the Course Name rule: a non-blank
name is invalid when the first character of the stripped text is not
uppercase; otherwise invalid exactly when some word after the first is a
capitalized conjunction, with the first such word named in the message. -/
def courseNameSpec (s : Str) : Verdict :=
  match stripWs s with
  | [] => ⟨false, str "Course Name cannot be blank"⟩
  | c :: cs =>
    if !isUpperCh c then
      ⟨false, str "Course Name must start with capital letter"⟩
    else
      match (wordsOf (c :: cs)).tail.find? isBadConjWord with
      | some w =>
        ⟨false, str "Conjunction \x22" ++ w ++ str "\x22 should be lowercase"⟩
      | none => ⟨true, str "Valid course name"⟩

/-- Defined from the claim's wording: a probe outcome marks the URL broken
exactly for HTTP statuses 404, 410, 500, 502, 503, 504, a timeout, or a
connection failure; every other status is acceptable. -/
def badOutcome : ProbeOutcome → Bool
  | .status n =>
    n = 404 || n = 410 || n = 500 || n = 502 || n = 503 || n = 504
  | .timeout => true
  | .connError => true

/-- The trivially-accepting well-formedness test used by the witness. -/
def wfAll : Str → Bool := fun _ => true

/-- A concrete probe for the witness: `http://a` answers 404, every other
URL answers 200. -/
def probe404a : Str → ProbeOutcome := fun u =>
  if u = str "http://a" then ProbeOutcome.status 404
  else ProbeOutcome.status 200

/-! ## Theorems

Sanity evaluations of the embedded string utilities, then the helper
lemmas and the claim theorems. -/

example : stripWs (str "  a b  ") = str "a b" := by decide

example : splitChar ',' (str "a,,b") = [str "a", str "", str "b"] := by decide

example : splitChar ',' (str "") = [str ""] := by decide

example : wordsOf (str " Business And  Management ") =
    [str "Business", str "And", str "Management"] := by decide

example : containsSub (str "uniq") (str "be unique") = true := by decide

example : containsSub (str "uniq") (str "numeric") = false := by decide

example : natStr 30 = str "30" := by decide

example : joinSep (str "; ") [str "a", str "b", str "c"] = str "a; b; c" := by decide

/-! ### Python `float()` acceptance

`validate_institution_id` and `validate_course_id` test numericity with
`float(str(value))`.  `pyFloatDigits` consumes a Python digit group
(decimal digits with single underscores allowed only between two digits)
and returns how many digits it consumed together with the rest. -/

example : isPyFloat (str "101") = true := by decide

example : isPyFloat (str " -3.5e+2 ") = true := by decide

example : isPyFloat (str "1_000.5") = true := by decide

example : isPyFloat (str ".5") = true := by decide

example : isPyFloat (str "7.") = true := by decide

example : isPyFloat (str "Inf") = true := by decide

example : isPyFloat (str "abc") = false := by decide

example : isPyFloat (str "") = false := by decide

example : isPyFloat (str " ") = false := by decide

example : isPyFloat (str "1_") = false := by decide

example : isPyFloat (str "1__0") = false := by decide

example : isPyFloat (str "1._5") = false := by decide

example : isPyFloat (str "1e") = false := by decide

example : isPyFloat (str ".") = false := by decide

/-! ### Date parsing (`datetime.strptime(date, '%Y-%m-%d')`)

`strptime` with format `%Y-%m-%d` accepts exactly: four year digits, a
dash, a one- or two-digit month in 1..12, a dash, a one- or two-digit day
in 1..31, nothing else; the `datetime` constructor then requires year at
least 1 and the day to exist in that month of that year. -/

example : strptimeYMD (str "2024-09-01") = true := by decide

example : strptimeYMD (str "2024-9-1") = true := by decide

example : strptimeYMD (str "2024-02-29") = true := by decide

example : strptimeYMD (str "2023-02-29") = false := by decide

example : strptimeYMD (str "2024-13-01") = false := by decide

example : strptimeYMD (str "2024-09-015720") = false := by decide

example : strptimeYMD (str "2024/09/01") = false := by decide

example : strptimeYMD (str "0000-01-01") = false := by decide

/-! ### The value cleaner (`ExcelFileHandler.clean_data`, io_file.py) -/

example : clean_date_format (str "2024-09-015720") = str "2024-09-01" := by
  decide

example : clean_date_format (str "2024/09/01") = str "2024/09/01" := by decide

example : normalize_study_mode (str " FULL-TIME ") = str "Full time" := by
  decide

example : normalize_study_mode (str "partial") = str "Part time" := by decide

/-! ### The column normalizer (`ExcelFileHandler.normalize_column_names`) -/

example : normalizeColumn (str "Institution Id") = str "Institution Id" := by
  decide

example : normalizeColumn (str "Instituti0n") = str "Institution Id" := by
  decide

example : normalizeColumn (str "Course Type") = str "Course Type" := by decide

example : normalizeColumn (str "Mystery") = str "Mystery" := by decide

/-! ### Helper lemmas on the string utilities -/

theorem dropLead_eq_self {p : Char → Bool} {l : Str}
    (h : ∀ c cs, l = c :: cs → p c = false) : dropLead p l = l := by
  cases l with
  | nil => rfl
  | cons c cs => simp [dropLead, h c cs rfl]

theorem dropLead_head {p : Char → Bool} :
    ∀ {l c cs}, dropLead p l = c :: cs → p c = false := by
  intro l
  induction l with
  | nil => intro c cs h; simp [dropLead] at h
  | cons a t ih =>
    intro c cs h
    by_cases hp : p a
    · exact ih (by simpa [dropLead, hp] using h)
    · simp [dropLead, hp] at h
      simp [← h.1, hp]

theorem dropLead_suffix (p : Char → Bool) (l : Str) : dropLead p l <:+ l := by
  induction l with
  | nil => exact List.suffix_refl _
  | cons c cs ih =>
    by_cases hp : p c
    · simpa [dropLead, hp] using ih.trans (List.suffix_cons c cs)
    · simp [dropLead, hp]

theorem dropLead_split (p : Char → Bool) (l : Str) :
    ∃ w, l = w ++ dropLead p l ∧ w.all p := by
  induction l with
  | nil => exact ⟨[], by simp [dropLead]⟩
  | cons c cs ih =>
    by_cases hp : p c
    · obtain ⟨w, hw, hall⟩ := ih
      exact ⟨c :: w, by simp [dropLead, hp, hall, ← hw]⟩
    · exact ⟨[], by simp [dropLead, hp]⟩

theorem stripWs_no_lead {s c cs} (h : stripWs s = c :: cs) :
    isSpaceCh c = false := by
  have hsuf : dropLead isSpaceCh ((dropLead isSpaceCh s).reverse) <:+
      (dropLead isSpaceCh s).reverse := dropLead_suffix _ _
  have hpre : stripWs s <+: dropLead isSpaceCh s := by
    have := List.reverse_prefix.mpr hsuf
    simpa [stripWs] using this
  obtain ⟨r, hr⟩ := hpre
  rw [h] at hr
  exact dropLead_head (l := s) hr.symm

theorem stripWs_idem (s : Str) : stripWs (stripWs s) = stripWs s := by
  have h1 : dropLead isSpaceCh (stripWs s) = stripWs s := by
    refine dropLead_eq_self ?_
    intro c cs h
    exact stripWs_no_lead h
  have h2 : dropLead isSpaceCh ((stripWs s).reverse) = (stripWs s).reverse := by
    refine dropLead_eq_self ?_
    intro c cs h
    have : dropLead isSpaceCh
        ((dropLead isSpaceCh s).reverse) = c :: cs := by
      have := congrArg List.reverse h
      simpa [stripWs] using this
    exact dropLead_head this
  show (dropLead isSpaceCh
      ((dropLead isSpaceCh (stripWs s)).reverse)).reverse = stripWs s
  rw [h1, h2, List.reverse_reverse]

theorem beginsWith_imp_contains {p s : Str} (h : beginsWith p s = true) :
    containsSub p s = true := by
  cases s with
  | nil => simpa [containsSub] using h
  | cons c cs => simp [containsSub, h]

theorem beginsWith_or_contains (p s : Str) :
    (beginsWith p s || containsSub p s) = containsSub p s := by
  cases hb : beginsWith p s
  · simp
  · simp [beginsWith_imp_contains hb]

theorem isSpaceCh_toLowerCh (c : Char) :
    isSpaceCh (toLowerCh c) = isSpaceCh c := by
  unfold toLowerCh
  by_cases hu : isUpperCh c
  · have hb : 65 ≤ c.toNat ∧ c.toNat ≤ 90 := by
      simpa [isUpperCh] using hu
    have hv : (c.toNat + 32).isValidChar := Or.inl (by omega)
    have ht : (Char.ofNat (c.toNat + 32)).toNat = c.toNat + 32 := by
      unfold Char.ofNat
      rw [dif_pos hv]
      rfl
    simp only [hu, if_true, isSpaceCh, ht]
    have hL : (decide (c.toNat + 32 = 32) || decide (c.toNat + 32 = 9) ||
        decide (c.toNat + 32 = 10) || decide (c.toNat + 32 = 13) ||
        decide (c.toNat + 32 = 11) || decide (c.toNat + 32 = 12)) = false := by
      simp only [Bool.or_eq_false_iff, decide_eq_false_iff_not]
      omega
    have hR : (decide (c.toNat = 32) || decide (c.toNat = 9) ||
        decide (c.toNat = 10) || decide (c.toNat = 13) ||
        decide (c.toNat = 11) || decide (c.toNat = 12)) = false := by
      simp only [Bool.or_eq_false_iff, decide_eq_false_iff_not]
      omega
    rw [hL, hR]
  · simp [hu]

theorem dropLead_map {q : Char → Bool} {f : Char → Char}
    (hq : ∀ c, q (f c) = q c) (l : Str) :
    dropLead q (l.map f) = (dropLead q l).map f := by
  induction l with
  | nil => rfl
  | cons c cs ih =>
    by_cases h : q c
    · simp [dropLead, hq, h, ih]
    · simp [dropLead, hq, h]

theorem stripWs_lowerStr (s : Str) :
    stripWs (lowerStr s) = lowerStr (stripWs s) := by
  simp only [stripWs, lowerStr]
  rw [dropLead_map isSpaceCh_toLowerCh, ← List.map_reverse,
    dropLead_map isSpaceCh_toLowerCh, ← List.map_reverse]

theorem beginsWith_append_ws {p w : Str}
    (hp : p.all (fun c => !isSpaceCh c)) (hw : w.all isSpaceCh) :
    ∀ l, beginsWith p (l ++ w) = beginsWith p l := by
  induction p with
  | nil => intro l; cases l <;> rfl
  | cons pc pr ih =>
    intro l
    have hpc : isSpaceCh pc = false := by
      simp [List.all_cons] at hp
      simp [hp.1]
    have hpr : pr.all (fun c => !isSpaceCh c) := by
      simp [List.all_cons] at hp
      simpa using hp.2
    cases l with
    | nil =>
      cases w with
      | nil => rfl
      | cons wc wr =>
        have hwc : isSpaceCh wc = true := by
          simp [List.all_cons] at hw
          exact hw.1
        have : (pc = wc) = False := by
          simp
          intro he
          rw [he] at hpc
          rw [hpc] at hwc
          exact Bool.false_ne_true hwc
        simp [beginsWith, this]
    | cons c cs =>
      simp only [List.cons_append, beginsWith, List.append_eq]
      rw [ih hpr cs]

theorem containsSub_in_ws {p w : Str} (hne : p ≠ [])
    (hp : p.all (fun c => !isSpaceCh c)) (hw : w.all isSpaceCh) :
    containsSub p w = false := by
  induction w with
  | nil =>
    cases p with
    | nil => exact absurd rfl hne
    | cons pc pr => rfl
  | cons wc wr ih =>
    have hwc : isSpaceCh wc = true := by
      simp [List.all_cons] at hw
      exact hw.1
    have hwr : wr.all isSpaceCh := by
      simp [List.all_cons] at hw
      simpa using hw.2
    cases p with
    | nil => exact absurd rfl hne
    | cons pc pr =>
      have hpc : isSpaceCh pc = false := by
        simp [List.all_cons] at hp
        simp [hp.1]
      have hne2 : (pc = wc) = False := by
        simp
        intro he
        rw [he] at hpc
        rw [hpc] at hwc
        exact Bool.false_ne_true hwc
      simp [containsSub, beginsWith, hne2, ih hwr]

theorem containsSub_append_ws {p w : Str} (hne : p ≠ [])
    (hp : p.all (fun c => !isSpaceCh c)) (hw : w.all isSpaceCh) :
    ∀ l, containsSub p (l ++ w) = containsSub p l := by
  intro l
  induction l with
  | nil =>
    have h0 : containsSub p [] = false := by
      cases p with
      | nil => exact absurd rfl hne
      | cons a b => rfl
    simp only [List.nil_append, h0]
    exact containsSub_in_ws hne hp hw
  | cons c cs ih =>
    have hbw := beginsWith_append_ws hp hw (c :: cs)
    simp only [List.cons_append, List.append_eq] at hbw
    simp only [List.cons_append, containsSub, List.append_eq]
    rw [hbw, ih]

theorem containsSub_dropLead_ws {p : Str} {pc : Char} {pr : Str}
    (hp : p = pc :: pr) (hpc : isSpaceCh pc = false) (l : Str) :
    containsSub p (dropLead isSpaceCh l) = containsSub p l := by
  induction l with
  | nil => rfl
  | cons c cs ih =>
    by_cases h : isSpaceCh c
    · have hb : beginsWith p (c :: cs) = false := by
        subst hp
        have : (pc = c) = False := by
          simp
          intro he
          rw [he] at hpc
          rw [hpc] at h
          exact Bool.false_ne_true h
        simp [beginsWith, this]
      simp [dropLead, h, containsSub, hb, ih]
    · simp [dropLead, h]

theorem containsSub_stripWs (pc : Char) (pr : Str) {p : Str}
    (hp : p = pc :: pr) (hnp : p.all (fun c => !isSpaceCh c)) (s : Str) :
    containsSub p (stripWs s) = containsSub p s := by
  have hpc : isSpaceCh pc = false := by
    subst hp
    simp [List.all_cons] at hnp
    simp [hnp.1]
  have hne : p ≠ [] := by simp [hp]
  have h1 : containsSub p (dropLead isSpaceCh s) = containsSub p s :=
    containsSub_dropLead_ws hp hpc s
  obtain ⟨w, hw, hall⟩ :=
    dropLead_split isSpaceCh ((dropLead isSpaceCh s).reverse)
  have hu : dropLead isSpaceCh s = stripWs s ++ w.reverse := by
    have := congrArg List.reverse hw
    simpa [stripWs] using this
  have hwr : w.reverse.all isSpaceCh := by simpa using hall
  rw [← h1, hu, containsSub_append_ws hne hnp hwr]

/-! ### Spec-side definitions used by the claim theorems -/

/-- The leftmost-match characterization of `firstDateSub`: the regex
search either fails everywhere or returns the ten-character slice at the
smallest starting index whose shape fits. -/
theorem firstDateSub_spec : ∀ cs : Str,
    (firstDateSub cs = none ∧ ∀ i, dateAtHead (cs.drop i) = false) ∨
    (∃ i, dateAtHead (cs.drop i) = true ∧
      (∀ j < i, dateAtHead (cs.drop j) = false) ∧
      firstDateSub cs = some ((cs.drop i).take 10)) := by
  intro cs
  induction cs with
  | nil =>
    left
    refine ⟨rfl, ?_⟩
    intro i
    simp [List.drop_nil, dateAtHead]
  | cons c t ih =>
    by_cases h : dateAtHead (c :: t) = true
    · right
      exact ⟨0, by simpa using h, by omega, by simp [firstDateSub, h]⟩
    · have hf : dateAtHead (c :: t) = false := by simpa using h
      rcases ih with ⟨hn, hall⟩ | ⟨i, hi, hj, he⟩
      · left
        refine ⟨by simp [firstDateSub, hf, hn], ?_⟩
        intro i
        cases i with
        | zero => simpa using hf
        | succ k => simpa using hall k
      · right
        refine ⟨i + 1, by simpa using hi, ?_, ?_⟩
        · intro j hlt
          cases j with
          | zero => simpa using hf
          | succ k => simpa using hj k (by omega)
        · simp [firstDateSub, hf, he]

/-! ### Claim theorems -/

/-- C1: the claim says every field validator is total (always returns a
verdict, never raises).  The code contradicts it: on a whitespace-only,
non-empty Course Name the blank check `value == ''` passes, then
`course_name[0]` indexes the stripped (now empty) text and raises
`IndexError`, modelled here as `none` — no verdict is produced. -/
theorem c1_whitespace_name_raises :
    validate_course_name (some (str " ")) = none := by decide

/-- C4, counterexample: the claim says a cell equal (case-insensitively)
to the compound `NULL,NUL` is rewritten to the empty string.  The
`replace` list holds only the four exact literals, so the compound cell
is left untouched. -/
theorem c4_compound_not_erased :
    replaceNullMarkers (str "NULL,NUL") = str "NULL,NUL" ∧
    str "NULL,NUL" ≠ str "" := by decide

/-- C4, amended: a cell is affected by null-marker erasure exactly when it
is one of the four exact literals `NULL`, `NUL`, `null`, `nul` (matched
case-sensitively, whole-cell); such a cell becomes the empty string. -/
theorem c4_null_marker_exact (v : Str) :
    (replaceNullMarkers v ≠ v ↔ v ∈ nullMarkers) ∧
    (v ∈ nullMarkers → replaceNullMarkers v = str "") := by
  by_cases hm : v ∈ nullMarkers
  · have hv : v = str "NULL" ∨ v = str "NUL" ∨ v = str "null" ∨
        v = str "nul" := by simpa [nullMarkers] using hm
    rcases hv with h | h | h | h <;> subst h <;> decide
  · constructor
    · simp [replaceNullMarkers, hm]
    · intro h
      exact absurd h hm

/-- C5, counterexample: the claim says that with no `YYYY-MM-DD` substring
the cleaner returns the input unchanged; on an input with surrounding
whitespace it returns the stripped text instead. -/
theorem c5_strip_changes_input :
    clean_date_format (str " 2024/09/01") = str "2024/09/01" ∧
    str " 2024/09/01" ≠ str "2024/09/01" := by decide

/-- C5, amended: date cleaning returns the first (leftmost) substring of
the stripped raw text matching `digit{4}-digit{2}-digit{2}` when one
exists, and otherwise the whitespace-stripped input (so an input
without surrounding whitespace is returned unchanged); in particular
`2024-09-015720` cleans to `2024-09-01`, and `2024/09/01` is unchanged
and then rejected by the Date validator. -/
theorem c5_date_cleaning (s : Str) :
    clean_date_format (str "2024-09-015720") = str "2024-09-01" ∧
    clean_date_format (str "2024/09/01") = str "2024/09/01" ∧
    (validate_course_start_date (some (str "2024/09/01"))).valid = false ∧
    ((∃ i, dateAtHead ((stripWs s).drop i) = true ∧
        (∀ j < i, dateAtHead ((stripWs s).drop j) = false) ∧
        clean_date_format s = ((stripWs s).drop i).take 10) ∨
      ((∀ i, dateAtHead ((stripWs s).drop i) = false) ∧
        clean_date_format s = stripWs s)) := by
  refine ⟨by decide, by decide, by decide, ?_⟩
  rcases firstDateSub_spec (stripWs s) with ⟨hn, hall⟩ | ⟨i, hi, hj, he⟩
  · right
    refine ⟨hall, ?_⟩
    by_cases hs : s = []
    · subst hs
      decide
    · simp [clean_date_format, hs, hn]
  · left
    refine ⟨i, hi, hj, ?_⟩
    by_cases hs : s = []
    · subst hs
      simp [firstDateSub] at he
    · simp [clean_date_format, hs, he]

/-- C8, counterexample: the claim says containment is tested in either
direction; the header `Cours` is contained in the variant `Course I`
(table-first such variant), so the claim maps it to `Course Id`, but
the code only tests `startswith`/variant-in-header and passes `Cours`
through unchanged. -/
theorem c8_header_in_variant_not_matched :
    normalizeColumn (str "Cours") = str "Cours" ∧
    containsSub (str "Cours") (str "Course I") = true ∧
    str "Cours" ≠ str "Course Id" := by decide

/-- C8, amended: exact canonical headers pass through; otherwise the first
variation (in declared order) whose variant text is a prefix of or
contained anywhere in the header wins — equivalently, containment of
the variant in the header only; unmatched headers pass through. -/
theorem c8_normalize_column (col : Str) :
    normalizeColumn col = normalizeColumnSpec col := by
  unfold normalizeColumn normalizeColumnSpec
  have hfun : (fun p : Str × Str =>
      beginsWith p.1 col || containsSub p.1 col) =
      (fun p : Str × Str => containsSub p.1 col) := by
    funext p
    exact beginsWith_or_contains p.1 col
  rw [hfun]

/-- C10: a Study Mode value whose lowercased text contains both `full` and
`part` is canonicalized to `Full time` (the `full` rule is tested
first), and the cleaner is idempotent. -/
theorem c10_study_mode :
    (∀ s : Str, containsSub (str "full") (lowerStr s) = true →
      containsSub (str "part") (lowerStr s) = true →
      normalize_study_mode s = str "Full time") ∧
    (∀ s : Str, normalize_study_mode (normalize_study_mode s) =
      normalize_study_mode s) := by
  constructor
  · intro s h1 h2
    by_cases hs : s = []
    · subst hs
      simp [lowerStr] at h1
      exact absurd h1 (by decide)
    · have hfull : containsSub (str "full") (lowerStr (stripWs s)) = true := by
        rw [← stripWs_lowerStr]
        rw [containsSub_stripWs 'f' (str "ull") (by decide) (by decide)]
        exact h1
      simp [normalize_study_mode, hs, hfull]
  · intro s
    have hts : stripWs (stripWs s) = stripWs s := stripWs_idem s
    by_cases hs : s = []
    · simp [normalize_study_mode, hs]
    · by_cases hf : containsSub (str "full") (lowerStr (stripWs s)) = true
      · have h1 : normalize_study_mode s = str "Full time" := by
          simp [normalize_study_mode, hs, hf]
        rw [h1]
        decide
      · by_cases hp2 : containsSub (str "part") (lowerStr (stripWs s)) = true
        · have h1 : normalize_study_mode s = str "Part time" := by
            simp [normalize_study_mode, hs, hf, hp2]
          rw [h1]
          decide
        · have h1 : normalize_study_mode s = stripWs s := by
            simp [normalize_study_mode, hs, hf, hp2]
          rw [h1]
          by_cases ht : stripWs s = []
          · simp [normalize_study_mode, ht]
          · simp [normalize_study_mode, ht, hts, hf, hp2]

theorem splitChar_no_sep {sep : Char} {b : Str}
    (h : containsChar sep b = false) : splitChar sep b = [b] := by
  induction b with
  | nil => rfl
  | cons c cs ih =>
    simp [containsChar] at h
    have hcs : containsChar sep cs = false := by
      simp [containsChar]
      intro x hx
      exact h.2 x hx
    have hc : (c = sep) = False := by simp [h.1]
    simp [splitChar, hc, ih hcs]

theorem dedup_length_iff (l : List Str) :
    l.dedup.length = l.length ↔ l.Nodup := by
  constructor
  · intro h
    have he := (List.dedup_sublist l).eq_of_length h
    rw [← he]
    exact List.nodup_dedup l
  · intro h
    rw [List.dedup_eq_self.mpr h]

/-- C3, counterexample: the claim says a blank intake/start-date pair is
invalid, but the source's blank check tests only `pd.isna`, so the
empty-string pair sails through to the counting stage, where both
counts are zero and no duplicate exists: the verdict is valid. -/
theorem c3_blank_pair_valid :
    validate_course_intake_ids (some (str "")) (some (str "")) =
      ⟨true, str "Valid course intake IDs"⟩ := by decide

/-- C3, amended: only a missing (`NaN`) intake or start-date value is
rejected as blank; otherwise both fields are split on commas into
non-empty trimmed components (an empty string giving zero components),
the verdict is valid iff the component counts agree and the intake
components are pairwise distinct, and a count mismatch is reported with
both counts in the message (`1,2,3` against `2024-09-01` gives 3 vs 1). -/
theorem c3_intake_ids (a b : Str) (v : Value) :
    (validate_course_intake_ids none v).valid = false ∧
    (validate_course_intake_ids (some a) none).valid = false ∧
    ((validate_course_intake_ids (some a) (some b)).valid = true ↔
      (compsOf a).length = (compsOf b).length ∧ (compsOf a).Nodup) ∧
    ((compsOf a).length ≠ (compsOf b).length →
      (validate_course_intake_ids (some a) (some b)).message =
        str "Intake IDs count (" ++ natStr (compsOf a).length ++
        str ") must match start dates count (" ++
        natStr (compsOf b).length ++ str ")") := by
  have hdc : (if containsChar ',' b then (compsOf b).length
      else if stripWs b ≠ [] then 1 else 0) = (compsOf b).length := by
    by_cases hb : containsChar ',' b
    · simp [hb]
    · have hb2 : containsChar ',' b = false := by simpa using hb
      have hsplit : splitChar ',' b = [b] := splitChar_no_sep hb2
      simp only [hb2, if_false, Bool.false_eq_true, compsOf, hsplit]
      by_cases hsb : stripWs b = []
      · simp [hsb]
      · simp [hsb]
  have hval : validate_course_intake_ids (some a) (some b) =
      (if (compsOf a).length ≠ (compsOf b).length then
        ⟨false,
          str "Intake IDs count (" ++ natStr (compsOf a).length ++
          str ") must match start dates count (" ++
          natStr (compsOf b).length ++ str ")"⟩
      else if (compsOf a).length ≠ (compsOf a).dedup.length then
        ⟨false, str "Course Intake IDs must be unique"⟩
      else ⟨true, str "Valid course intake IDs"⟩) := by
    simp only [validate_course_intake_ids]
    rw [hdc]
  refine ⟨by cases v <;> rfl, rfl, ?_, ?_⟩
  · by_cases h1 : (compsOf a).length = (compsOf b).length
    · have h4 : ¬((compsOf a).length ≠ (compsOf b).length) := by simp [h1]
      by_cases h2 : (compsOf a).Nodup
      · have h3 : (compsOf a).dedup.length = (compsOf a).length :=
          (dedup_length_iff _).mpr h2
        have h5 : ¬((compsOf a).length ≠ (compsOf a).dedup.length) := by
          simp [h3]
        rw [hval, if_neg h4, if_neg h5]
        simp [h1, h2]
      · have h3 : (compsOf a).length ≠ (compsOf a).dedup.length := by
          intro he
          exact h2 ((dedup_length_iff _).mp he.symm)
        rw [hval, if_neg h4, if_pos h3]
        simp [h2]
    · rw [hval, if_pos h1]
      simp [h1]
  · intro hne
    rw [hval, if_pos hne]

theorem findBadConj_from_one (ws : List Str) :
    ∀ i : Nat, 0 < i → findBadConj i ws = ws.find? isBadConjWord := by
  induction ws with
  | nil => intro i _; rfl
  | cons w t ih =>
    intro i hi
    by_cases hb : isBadConjWord w = true
    · have hc : (decide (0 < i) && isBadConjWord w) = true := by simp [hi, hb]
      rw [findBadConj, if_pos hc, List.find?_cons_of_pos _ hb]
    · have hb2 : isBadConjWord w = false := by simpa using hb
      have hc : (decide (0 < i) && isBadConjWord w) = false := by simp [hb2]
      rw [findBadConj, if_neg (by simp [hc]), List.find?_cons_of_neg _ hb,
        ih (i + 1) (by omega)]

theorem findBadConj_zero (ws : List Str) :
    findBadConj 0 ws = ws.tail.find? isBadConjWord := by
  cases ws with
  | nil => rfl
  | cons w t =>
    have hc : (decide (0 < 0) && isBadConjWord w) = false := by simp
    rw [findBadConj, if_neg (by simp [hc]), findBadConj_from_one t 1 (by omega)]
    rfl

/-- C6: on every non-blank course name the validator returns a verdict and
it agrees with the claim's rule: invalid when the first character is not
uppercase, otherwise invalid iff some word after the first is a
conjunction written with an uppercase initial (the first one is named in
the message), valid otherwise. -/
theorem c6_course_name (s : Str) (h : stripWs s ≠ []) :
    validate_course_name (some s) = some (courseNameSpec s) ∧
    ((courseNameSpec s).valid = true ↔
      (∃ c cs, stripWs s = c :: cs ∧ isUpperCh c = true) ∧
      ∀ w ∈ (wordsOf (stripWs s)).tail, isBadConjWord w = false) := by
  have hs : s ≠ [] := by
    intro he
    subst he
    exact h rfl
  cases hss : stripWs s with
  | nil => exact absurd hss h
  | cons c cs =>
    constructor
    · have hb : isBlankRaw (some s) = false := by simp [isBlankRaw, hs]
      simp only [validate_course_name, courseNameSpec, hb,
        Bool.false_eq_true, if_false, hss]
      by_cases hu : isUpperCh c = true
      · rw [findBadConj_zero]
        cases hff : (wordsOf (c :: cs)).tail.find? isBadConjWord <;>
          simp [hff, hu]
      · simp [hu]
    · simp only [courseNameSpec, hss]
      by_cases hu : isUpperCh c
      · cases hff : (wordsOf (c :: cs)).tail.find? isBadConjWord with
        | none =>
          simp only [hu, Bool.not_true, Bool.false_eq_true, if_false, hff]
          constructor
          · intro _
            refine ⟨⟨c, cs, rfl, hu⟩, ?_⟩
            intro w hw
            have := List.find?_eq_none.mp hff w hw
            simpa using this
          · intro _
            trivial
        | some w =>
          simp only [hu, Bool.not_true, Bool.false_eq_true, if_false, hff]
          constructor
          · intro hv
            simp at hv
          · rintro ⟨-, hall⟩
            have hmem := List.mem_of_find?_eq_some hff
            have hpw := List.find?_some hff
            rw [hall w hmem] at hpw
            exact absurd hpw (by simp)
      · have hu2 : isUpperCh c = false := by simpa using hu
        simp only [hu2, Bool.not_false, if_true]
        constructor
        · intro hv
          simp at hv
        · rintro ⟨⟨c', cs', he, hup⟩, -⟩
          rw [List.cons.injEq] at he
          rw [← he.1] at hup
          rw [hu2] at hup
          exact absurd hup (by simp)

/-- C6 witness: the theorem applied to the concrete name
`Business And Management`, whose verdict is invalid. -/
theorem c6_course_name_witness :
    (validate_course_name (some (str "Business And Management")) =
      some (courseNameSpec (str "Business And Management"))) ∧
    (courseNameSpec (str "Business And Management")).valid = false := by
  have h := c6_course_name (str "Business And Management") (by decide)
  exact ⟨h.1, by decide⟩

/-! ### Structure of `validate_all_fields` -/

theorem segErrs_facts {i : Nat} {key : Str} {p : Option Value}
    {f : Value → Option Verdict} {t : Str → Str} {l : List ErrorRecord}
    (h : segErrs i key p f t = some l) :
    l.length ≤ 1 ∧ ∀ e ∈ l, e.column = key ∧ e.row = i + 1 := by
  cases p with
  | none =>
    have hl : l = [] := by simpa [segErrs] using h.symm
    subst hl
    simp
  | some v =>
    cases hf : f v with
    | none => simp [segErrs, hf] at h
    | some r =>
      have hl : l = (if r.valid then []
          else [⟨i + 1, key, t r.message, r.message, strOfValue v⟩]) := by
        simpa [segErrs, hf] using h.symm
      subst hl
      by_cases hv : r.valid
      · simp [hv]
      · simp [hv]

theorem vaf_decomp {wf : Str → Bool} {probe : Str → ProbeOutcome}
    {row : RowMap} {i : Nat} {ids : List Str} {errs : List ErrorRecord}
    (h : validate_all_fields wf probe row i ids = some errs) :
    ∃ e1 e2 e3 e4 e5 e6 e7 e8 e9 e10 e11 e12,
      segErrs i kInstitutionId (lookupRow row kInstitutionId)
        (fun v => some (validate_institution_id v))
        (fun _ => str "Numeric") = some e1 ∧
      segErrs i kCourseId (lookupRow row kCourseId)
        (fun v => some (validate_course_id v ids)) courseIdType = some e2 ∧
      segErrs i kCourseName (lookupRow row kCourseName)
        validate_course_name (fun _ => str "Capitalization") = some e3 ∧
      segErrs i kL3Tagging (lookupRow row kL3Tagging)
        (fun v => some (validate_l3_tagging v)) (fun _ => str "Blank") =
        some e4 ∧
      segErrs i kDegreeType (lookupRow row kDegreeType)
        (fun v => some (validate_degree_type v)) (fun _ => str "Blank") =
        some e5 ∧
      segErrs i kCourseType (lookupRow row kCourseType)
        (fun v => some (validate_course_type v)) (fun _ => str "Blank") =
        some e6 ∧
      segErrs i kCourseStartDate (lookupRow row kCourseStartDate)
        (fun v => some (validate_course_start_date v)) (fun _ => str "Date") =
        some e7 ∧
      segErrs i kCourseLevelURL (lookupRow row kCourseLevelURL)
        (fun v => some (validate_course_level_url wf probe v))
        (fun _ => str "URL") = some e8 ∧
      segErrs i kCourseIntakeIds
        (match lookupRow row kCourseIntakeIds,
            lookupRow row kCourseStartDate with
         | some a, some _ => some a
         | _, _ => none)
        (fun v => some (validate_course_intake_ids v
          ((lookupRow row kCourseStartDate).join)))
        (fun _ => str "Count") = some e9 ∧
      segErrs i kShow (lookupRow row kShow)
        (fun v => some (validate_show v)) (fun _ => str "Status") = some e10 ∧
      segErrs i kCourseStatus (lookupRow row kCourseStatus)
        (fun v => some (validate_course_status v)) (fun _ => str "Status") =
        some e11 ∧
      segErrs i kStudyMode (lookupRow row kStudyMode)
        (fun v => some (validate_study_mode v)) (fun _ => str "Status") =
        some e12 ∧
      errs = e1 ++ e2 ++ e3 ++ e4 ++ e5 ++ e6 ++ e7 ++ e8 ++ e9 ++ e10 ++
        e11 ++ e12 := by
  simp only [validate_all_fields, bind, Option.bind_eq_some,
    Option.pure_def, Option.some.injEq] at h
  obtain ⟨e1, h1, e2, h2, e3, h3, e4, h4, e5, h5, e6, h6, e7, h7, e8, h8,
    e9, h9, e10, h10, e11, h11, e12, h12, he⟩ := h
  exact ⟨e1, e2, e3, e4, e5, e6, e7, e8, e9, e10, e11, e12, h1, h2, h3, h4,
    h5, h6, h7, h8, h9, h10, h11, h12, he.symm⟩

theorem filter_flatten_nil {col : Str} :
    ∀ segs : List (Str × List ErrorRecord),
      (∀ p ∈ segs, ∀ e ∈ p.2, e.column = p.1) →
      (∀ p ∈ segs, p.1 ≠ col) →
      (segs.map Prod.snd).flatten.filter (fun e => e.column = col) = [] := by
  intro segs
  induction segs with
  | nil => intro _ _; rfl
  | cons p t ih =>
    intro hcol hne
    simp only [List.map_cons, List.flatten_cons, List.filter_append]
    have h1 : p.2.filter (fun e => e.column = col) = [] := by
      refine List.filter_eq_nil_iff.mpr ?_
      intro e he
      have := hcol p (by simp) e he
      simp [this]
      exact hne p (by simp)
    have h2 := ih (fun q hq => hcol q (by simp [hq]))
      (fun q hq => hne q (by simp [hq]))
    rw [h1, h2]
    rfl

theorem filter_flatten_le_one {col : Str} :
    ∀ segs : List (Str × List ErrorRecord),
      (∀ p ∈ segs, p.2.length ≤ 1 ∧ ∀ e ∈ p.2, e.column = p.1) →
      (segs.map Prod.fst).Nodup →
      ((segs.map Prod.snd).flatten.filter
        (fun e => e.column = col)).length ≤ 1 := by
  intro segs
  induction segs with
  | nil => intro _ _; simp
  | cons p t ih =>
    intro hseg hnd
    simp only [List.map_cons, List.flatten_cons, List.filter_append,
      List.length_append]
    have hndt : (t.map Prod.fst).Nodup := (List.nodup_cons.mp hnd).2
    have hhd : p.1 ∉ t.map Prod.fst := (List.nodup_cons.mp hnd).1
    by_cases hc : p.1 = col
    · have hrest : (t.map Prod.snd).flatten.filter
          (fun e => e.column = col) = [] := by
        refine filter_flatten_nil t (fun q hq => (hseg q (by simp [hq])).2) ?_
        intro q hq he
        exact hhd (by
          rw [← hc] at he
          rw [← he]
          exact List.mem_map_of_mem Prod.fst hq)
      rw [hrest]
      simp only [List.length_nil, Nat.add_zero]
      calc (p.2.filter (fun e => e.column = col)).length
          ≤ p.2.length := List.length_filter_le _ _
        _ ≤ 1 := (hseg p (by simp)).1
    · have h1 : p.2.filter (fun e => e.column = col) = [] := by
        refine List.filter_eq_nil_iff.mpr ?_
        intro e he
        have := (hseg p (by simp)).2 e he
        simp [this]
        exact hc
      rw [h1]
      simpa using ih (fun q hq => hseg q (by simp [hq])) hndt

theorem vaf_row_number {wf : Str → Bool} {probe : Str → ProbeOutcome}
    {row : RowMap} {i : Nat} {ids : List Str} {errs : List ErrorRecord}
    (h : validate_all_fields wf probe row i ids = some errs) :
    ∀ e ∈ errs, e.row = i + 1 := by
  obtain ⟨e1, e2, e3, e4, e5, e6, e7, e8, e9, e10, e11, e12, h1, h2, h3, h4,
    h5, h6, h7, h8, h9, h10, h11, h12, he⟩ := vaf_decomp h
  intro e hee
  rw [he] at hee
  simp only [List.mem_append] at hee
  rcases hee with (((((((((((h' | h') | h') | h') | h') | h') | h') | h') | h') | h') | h') | h')
  · exact ((segErrs_facts h1).2 e h').2
  · exact ((segErrs_facts h2).2 e h').2
  · exact ((segErrs_facts h3).2 e h').2
  · exact ((segErrs_facts h4).2 e h').2
  · exact ((segErrs_facts h5).2 e h').2
  · exact ((segErrs_facts h6).2 e h').2
  · exact ((segErrs_facts h7).2 e h').2
  · exact ((segErrs_facts h8).2 e h').2
  · exact ((segErrs_facts h9).2 e h').2
  · exact ((segErrs_facts h10).2 e h').2
  · exact ((segErrs_facts h11).2 e h').2
  · exact ((segErrs_facts h12).2 e h').2

theorem vaf_courseId_part {wf : Str → Bool} {probe : Str → ProbeOutcome}
    {row : RowMap} {i : Nat} {ids : List Str} {errs : List ErrorRecord}
    (h : validate_all_fields wf probe row i ids = some errs) :
    ∃ l, segErrs i kCourseId (lookupRow row kCourseId)
        (fun v => some (validate_course_id v ids)) courseIdType = some l ∧
      (∀ e ∈ l, e ∈ errs) ∧ (∀ e ∈ errs, e.column = kCourseId → e ∈ l) := by
  obtain ⟨e1, e2, e3, e4, e5, e6, e7, e8, e9, e10, e11, e12, h1, h2, h3, h4,
    h5, h6, h7, h8, h9, h10, h11, h12, he⟩ := vaf_decomp h
  refine ⟨e2, h2, ?_, ?_⟩
  · intro e hei
    rw [he]
    simp only [List.mem_append]
    tauto
  · intro e hee hcol
    rw [he] at hee
    simp only [List.mem_append] at hee
    rcases hee with (((((((((((h' | h') | h') | h') | h') | h') | h') | h') | h') | h') | h') | h')
    · rw [((segErrs_facts h1).2 e h').1] at hcol
      exact absurd hcol (by decide)
    · exact h'
    · rw [((segErrs_facts h3).2 e h').1] at hcol
      exact absurd hcol (by decide)
    · rw [((segErrs_facts h4).2 e h').1] at hcol
      exact absurd hcol (by decide)
    · rw [((segErrs_facts h5).2 e h').1] at hcol
      exact absurd hcol (by decide)
    · rw [((segErrs_facts h6).2 e h').1] at hcol
      exact absurd hcol (by decide)
    · rw [((segErrs_facts h7).2 e h').1] at hcol
      exact absurd hcol (by decide)
    · rw [((segErrs_facts h8).2 e h').1] at hcol
      exact absurd hcol (by decide)
    · rw [((segErrs_facts h9).2 e h').1] at hcol
      exact absurd hcol (by decide)
    · rw [((segErrs_facts h10).2 e h').1] at hcol
      exact absurd hcol (by decide)
    · rw [((segErrs_facts h11).2 e h').1] at hcol
      exact absurd hcol (by decide)
    · rw [((segErrs_facts h12).2 e h').1] at hcol
      exact absurd hcol (by decide)

/-- C9: a row's validation never appends more than one Error Record per
(row, field) pair — for every column the error list holds at most one
record for it — and a Course Id value that is both non-numeric and
duplicated yields exactly one record for the Course Id column, with
category `Numeric` (the numeric check precedes the uniqueness check). -/
theorem c9_one_error_per_field (wf : Str → Bool) (probe : Str → ProbeOutcome)
    (row : RowMap) (i : Nat) (ids : List Str) (errs : List ErrorRecord)
    (h : validate_all_fields wf probe row i ids = some errs) :
    (∀ col : Str, (errs.filter (fun e => e.column = col)).length ≤ 1) ∧
    (∀ v : Str, lookupRow row kCourseId = some (some v) →
      isPyFloat v = false → v ≠ [] → countOcc ids v > 1 →
      errs.filter (fun e => e.column = kCourseId) =
        [⟨i + 1, kCourseId, str "Numeric",
          str "Course Id must be numeric", v⟩]) := by
  obtain ⟨e1, e2, e3, e4, e5, e6, e7, e8, e9, e10, e11, e12, h1, h2, h3, h4,
    h5, h6, h7, h8, h9, h10, h11, h12, he⟩ := vaf_decomp h
  constructor
  · intro col
    have hflat : ([(kInstitutionId, e1), (kCourseId, e2), (kCourseName, e3),
        (kL3Tagging, e4), (kDegreeType, e5), (kCourseType, e6),
        (kCourseStartDate, e7), (kCourseLevelURL, e8),
        (kCourseIntakeIds, e9), (kShow, e10), (kCourseStatus, e11),
        (kStudyMode, e12)].map Prod.snd).flatten = errs := by
      rw [he]
      simp [List.append_assoc]
    rw [← hflat]
    refine filter_flatten_le_one _ ?_ ?_
    · intro p hp
      simp only [List.mem_cons, List.not_mem_nil, or_false] at hp
      rcases hp with rfl | rfl | rfl | rfl | rfl | rfl | rfl | rfl | rfl |
        rfl | rfl | rfl
      · exact ⟨(segErrs_facts h1).1,
          fun e hme => ((segErrs_facts h1).2 e hme).1⟩
      · exact ⟨(segErrs_facts h2).1,
          fun e hme => ((segErrs_facts h2).2 e hme).1⟩
      · exact ⟨(segErrs_facts h3).1,
          fun e hme => ((segErrs_facts h3).2 e hme).1⟩
      · exact ⟨(segErrs_facts h4).1,
          fun e hme => ((segErrs_facts h4).2 e hme).1⟩
      · exact ⟨(segErrs_facts h5).1,
          fun e hme => ((segErrs_facts h5).2 e hme).1⟩
      · exact ⟨(segErrs_facts h6).1,
          fun e hme => ((segErrs_facts h6).2 e hme).1⟩
      · exact ⟨(segErrs_facts h7).1,
          fun e hme => ((segErrs_facts h7).2 e hme).1⟩
      · exact ⟨(segErrs_facts h8).1,
          fun e hme => ((segErrs_facts h8).2 e hme).1⟩
      · exact ⟨(segErrs_facts h9).1,
          fun e hme => ((segErrs_facts h9).2 e hme).1⟩
      · exact ⟨(segErrs_facts h10).1,
          fun e hme => ((segErrs_facts h10).2 e hme).1⟩
      · exact ⟨(segErrs_facts h11).1,
          fun e hme => ((segErrs_facts h11).2 e hme).1⟩
      · exact ⟨(segErrs_facts h12).1,
          fun e hme => ((segErrs_facts h12).2 e hme).1⟩
    · simp only [List.map_cons, List.map_nil]
      decide
  · intro v hv hnum hnb hdup
    have hvc : validate_course_id (some v) ids =
        ⟨false, str "Course Id must be numeric"⟩ := by
      simp [validate_course_id, isBlankRaw, hnb, hnum]
    have hct : courseIdType (str "Course Id must be numeric") =
        str "Numeric" := by decide
    have h2' : e2 = [⟨i + 1, kCourseId, str "Numeric",
        str "Course Id must be numeric", v⟩] := by
      rw [hv] at h2
      have h2s := h2.symm
      simp only [segErrs, hvc, Option.some.injEq] at h2s
      rw [h2s]
      simp [hct, strOfValue]
    have fnil : ∀ (l : List ErrorRecord) (key : Str), key ≠ kCourseId →
        (∀ e ∈ l, e.column = key) →
        l.filter (fun e => e.column = kCourseId) = [] := by
      intro l key hk hcl
      refine List.filter_eq_nil_iff.mpr ?_
      intro e hme
      rw [hcl e hme]
      simpa using hk
    have f1 := fnil e1 kInstitutionId (by decide)
      (fun e hme => ((segErrs_facts h1).2 e hme).1)
    have f3 := fnil e3 kCourseName (by decide)
      (fun e hme => ((segErrs_facts h3).2 e hme).1)
    have f4 := fnil e4 kL3Tagging (by decide)
      (fun e hme => ((segErrs_facts h4).2 e hme).1)
    have f5 := fnil e5 kDegreeType (by decide)
      (fun e hme => ((segErrs_facts h5).2 e hme).1)
    have f6 := fnil e6 kCourseType (by decide)
      (fun e hme => ((segErrs_facts h6).2 e hme).1)
    have f7 := fnil e7 kCourseStartDate (by decide)
      (fun e hme => ((segErrs_facts h7).2 e hme).1)
    have f8 := fnil e8 kCourseLevelURL (by decide)
      (fun e hme => ((segErrs_facts h8).2 e hme).1)
    have f9 := fnil e9 kCourseIntakeIds (by decide)
      (fun e hme => ((segErrs_facts h9).2 e hme).1)
    have f10 := fnil e10 kShow (by decide)
      (fun e hme => ((segErrs_facts h10).2 e hme).1)
    have f11 := fnil e11 kCourseStatus (by decide)
      (fun e hme => ((segErrs_facts h11).2 e hme).1)
    have f12 := fnil e12 kStudyMode (by decide)
      (fun e hme => ((segErrs_facts h12).2 e hme).1)
    have f2 : e2.filter (fun e => e.column = kCourseId) = e2 := by
      refine List.filter_eq_self.mpr ?_
      intro e hme
      rw [((segErrs_facts h2).2 e hme).1]
      simp
    rw [he]
    simp only [List.filter_append, f1, f3, f4, f5, f6, f7, f8, f9, f10,
      f11, f12, f2, h2']
    simp

/-- C9 witness: a row whose Course Id `abc` is non-numeric and occurs
twice in the dataset-wide id list: the row yields exactly one Course Id
record, with category `Numeric`. -/
theorem c9_one_error_per_field_witness :
    ((validate_all_fields (fun _ => true) (fun _ => ProbeOutcome.status 200)
      [(kCourseId, some (str "abc"))] 0 [str "abc", str "abc"]).getD
      []).filter (fun e => e.column = kCourseId) =
      [⟨1, kCourseId, str "Numeric", str "Course Id must be numeric",
        str "abc"⟩] := by
  have h := c9_one_error_per_field (fun _ => true)
    (fun _ => ProbeOutcome.status 200) [(kCourseId, some (str "abc"))] 0
    [str "abc", str "abc"]
    [⟨1, kCourseId, str "Numeric", str "Course Id must be numeric",
      str "abc"⟩] (by decide)
  have h2 := h.2 (str "abc") (by decide) (by decide) (by decide) (by decide)
  calc ((validate_all_fields (fun _ => true)
        (fun _ => ProbeOutcome.status 200) [(kCourseId, some (str "abc"))] 0
        [str "abc", str "abc"]).getD []).filter
        (fun e => e.column = kCourseId)
      = ([⟨1, kCourseId, str "Numeric", str "Course Id must be numeric",
          str "abc"⟩] : List ErrorRecord).filter
          (fun e => e.column = kCourseId) := by decide
    _ = [⟨1, kCourseId, str "Numeric", str "Course Id must be numeric",
          str "abc"⟩] := h2

theorem validateRows_cons {wf : Str → Bool} {probe : Str → ProbeOutcome}
    {ids : List Str} {i : Nat} {r : RowMap} {rs : List RowMap}
    {errs : List ErrorRecord}
    (h : validateRows wf probe ids i (r :: rs) = some errs) :
    ∃ e rest, validate_all_fields wf probe r i ids = some e ∧
      validateRows wf probe ids (i + 1) rs = some rest ∧ errs = e ++ rest := by
  simp only [validateRows, bind, Option.bind_eq_some, Option.pure_def,
    Option.some.injEq] at h
  obtain ⟨e, he, rest, hrest, heq⟩ := h
  exact ⟨e, rest, he, hrest, heq.symm⟩

theorem validateRows_get {wf : Str → Bool} {probe : Str → ProbeOutcome}
    {ids : List Str} :
    ∀ (rows : List RowMap) (i0 : Nat) (errs : List ErrorRecord) (j : Nat)
      (r : RowMap), validateRows wf probe ids i0 rows = some errs →
      rows.get? j = some r →
      ∃ er, validate_all_fields wf probe r (i0 + j) ids = some er ∧
        ∀ e ∈ er, e ∈ errs := by
  intro rows
  induction rows with
  | nil =>
    intro i0 errs j r _ hg
    simp at hg
  | cons r0 rs ih =>
    intro i0 errs j r h hg
    obtain ⟨e, rest, he, hrest, heq⟩ := validateRows_cons h
    cases j with
    | zero =>
      have hr : r = r0 := by simpa using hg.symm
      subst hr
      refine ⟨e, by simpa using he, ?_⟩
      intro x hx
      rw [heq]
      exact List.mem_append_left _ hx
    | succ jj =>
      have hg2 : rs.get? jj = some r := by simpa using hg
      obtain ⟨er, her, hsub⟩ := ih (i0 + 1) rest jj r hrest hg2
      refine ⟨er, by
        have : i0 + 1 + jj = i0 + (jj + 1) := by omega
        rwa [this] at her, ?_⟩
      intro x hx
      rw [heq]
      exact List.mem_append_right _ (hsub x hx)

theorem validateRows_src {wf : Str → Bool} {probe : Str → ProbeOutcome}
    {ids : List Str} :
    ∀ (rows : List RowMap) (i0 : Nat) (errs : List ErrorRecord),
      validateRows wf probe ids i0 rows = some errs →
      ∀ e ∈ errs, ∃ j r er, rows.get? j = some r ∧
        validate_all_fields wf probe r (i0 + j) ids = some er ∧ e ∈ er := by
  intro rows
  induction rows with
  | nil =>
    intro i0 errs h e he
    have : errs = [] := by simpa [validateRows] using h.symm
    subst this
    simp at he
  | cons r0 rs ih =>
    intro i0 errs h e he
    obtain ⟨e0, rest, he0, hrest, heq⟩ := validateRows_cons h
    rw [heq] at he
    rcases List.mem_append.mp he with hin | hin
    · exact ⟨0, r0, e0, rfl, by simpa using he0, hin⟩
    · obtain ⟨j, r, er, hg, hv, hm⟩ := ih (i0 + 1) rest hrest e hin
      refine ⟨j + 1, r, er, by simpa using hg, ?_, hm⟩
      have : i0 + 1 + j = i0 + (j + 1) := by omega
      rwa [this] at hv

/-- C2, counterexample: the claim says every value occurring more than
once in the Course Id column yields `Unique` records for all its
occurrences; a non-numeric duplicated value (`abc` twice) instead
yields `Numeric` records, because the numeric check fires first. -/
theorem c2_nonnumeric_duplicate_not_unique :
    validateDataset (fun _ => true) (fun _ => ProbeOutcome.status 200)
      [[(kCourseId, some (str "abc"))], [(kCourseId, some (str "abc"))]] =
      some [⟨1, kCourseId, str "Numeric", str "Course Id must be numeric",
          str "abc"⟩,
        ⟨2, kCourseId, str "Numeric", str "Course Id must be numeric",
          str "abc"⟩] ∧
    str "Numeric" ≠ str "Unique" := by decide

/-- C2, amended: for a non-blank, numeric Course Id value occurring more
than once in the dataset's Course Id column, every occurrence's row
receives a `Unique` Error Record; a value occurring exactly once never
receives a `Unique` record for its row, regardless of the other checks'
outcomes on it. -/
theorem c2_course_id_uniqueness (wf : Str → Bool)
    (probe : Str → ProbeOutcome) (rows : List RowMap) (i : Nat) (r : RowMap)
    (v : Str) (errs : List ErrorRecord)
    (hr : rows.get? i = some r)
    (hv : lookupRow r kCourseId = some (some v))
    (hd : validateDataset wf probe rows = some errs) :
    (isPyFloat v = true → countOcc (allCourseIds rows) v > 1 →
      (⟨i + 1, kCourseId, str "Unique", str "Course Id must be unique", v⟩ :
        ErrorRecord) ∈ errs) ∧
    (countOcc (allCourseIds rows) v = 1 →
      ∀ e ∈ errs, e.row = i + 1 → e.column = kCourseId →
        e.error_type ≠ str "Unique") := by
  have hd2 : validateRows wf probe (allCourseIds rows) 0 rows = some errs :=
    hd
  constructor
  · intro hnum hdup
    obtain ⟨er, her, hsub⟩ :=
      validateRows_get rows 0 errs i r hd2 hr
    have her2 : validate_all_fields wf probe r i (allCourseIds rows) =
        some er := by simpa using her
    obtain ⟨l, hl, hin, -⟩ := vaf_courseId_part her2
    have hnb : v ≠ [] := by
      intro hveq
      rw [hveq] at hnum
      exact absurd hnum (by decide)
    have hvc : validate_course_id (some v) (allCourseIds rows) =
        ⟨false, str "Course Id must be unique"⟩ := by
      simp [validate_course_id, isBlankRaw, hnb, hnum, hdup]
    have hct : courseIdType (str "Course Id must be unique") =
        str "Unique" := by decide
    have hl' : l = [⟨i + 1, kCourseId, str "Unique",
        str "Course Id must be unique", v⟩] := by
      rw [hv] at hl
      have hls := hl.symm
      simp only [segErrs, hvc, Option.some.injEq] at hls
      rw [hls]
      simp [hct, strOfValue]
    exact hsub _ (hin _ (by simp [hl']))
  · intro hcount e he hrow hcol
    obtain ⟨j, rj, erj, hgj, hvj, hej⟩ := validateRows_src rows 0 errs hd2 e he
    have hvj2 : validate_all_fields wf probe rj j (allCourseIds rows) =
        some erj := by simpa using hvj
    have hrowj : e.row = j + 1 := vaf_row_number hvj2 e hej
    have hji : j = i := by omega
    rw [hji] at hvj2 hgj
    have hrj : rj = r := by
      rw [hr] at hgj
      simpa using hgj.symm
    subst hrj
    obtain ⟨l, hl, -, hback⟩ := vaf_courseId_part hvj2
    have hel : e ∈ l := hback e hej hcol
    have hsafe : ∀ x ∈ l, x.error_type ≠ str "Unique" := by
      rw [hv] at hl
      by_cases hb : v = []
      · subst hb
        have hvc : validate_course_id (some []) (allCourseIds rows) =
            ⟨false, str "Course Id cannot be blank"⟩ := by
          simp [validate_course_id, isBlankRaw]
        have hls := hl.symm
        simp only [segErrs, hvc, Option.some.injEq] at hls
        rw [hls]
        intro x hx
        have : x = ⟨i + 1, kCourseId,
            courseIdType (str "Course Id cannot be blank"),
            str "Course Id cannot be blank", strOfValue (some [])⟩ := by
          simpa using hx
        rw [this]
        show courseIdType (str "Course Id cannot be blank") ≠ str "Unique"
        decide
      · by_cases hn : isPyFloat v = true
        · have hvc : validate_course_id (some v) (allCourseIds rows) =
              ⟨true, str "Valid course ID"⟩ := by
            simp [validate_course_id, isBlankRaw, hb, hn, hcount]
          have hls := hl.symm
          simp only [segErrs, hvc, Option.some.injEq] at hls
          rw [hls]
          intro x hx
          simp at hx
        · have hn2 : isPyFloat v = false := by simpa using hn
          have hvc : validate_course_id (some v) (allCourseIds rows) =
              ⟨false, str "Course Id must be numeric"⟩ := by
            simp [validate_course_id, isBlankRaw, hb, hn2]
          have hls := hl.symm
          simp only [segErrs, hvc, Option.some.injEq] at hls
          rw [hls]
          intro x hx
          have : x = ⟨i + 1, kCourseId,
              courseIdType (str "Course Id must be numeric"),
              str "Course Id must be numeric", strOfValue (some v)⟩ := by
            simpa using hx
          rw [this]
          show courseIdType (str "Course Id must be numeric") ≠ str "Unique"
          decide
    exact hsafe e hel

/-- C2 witness: the numeric Course Id `101` occurring twice — the first
occurrence's row receives the `Unique` record the theorem promises. -/
theorem c2_course_id_uniqueness_witness :
    (⟨1, kCourseId, str "Unique", str "Course Id must be unique",
      str "101"⟩ : ErrorRecord) ∈
      ([⟨1, kCourseId, str "Unique", str "Course Id must be unique",
          str "101"⟩,
        ⟨2, kCourseId, str "Unique", str "Course Id must be unique",
          str "101"⟩] : List ErrorRecord) := by
  have h := c2_course_id_uniqueness (fun _ => true)
    (fun _ => ProbeOutcome.status 200)
    [[(kCourseId, some (str "101"))], [(kCourseId, some (str "101"))]] 0
    [(kCourseId, some (str "101"))] (str "101")
    [⟨1, kCourseId, str "Unique", str "Course Id must be unique",
        str "101"⟩,
      ⟨2, kCourseId, str "Unique", str "Course Id must be unique",
        str "101"⟩] rfl rfl (by decide)
  exact h.1 (by decide) (by decide)

theorem urlErrMsg_isSome (u : Str) (o : ProbeOutcome) :
    (urlErrMsg u o).isSome = badOutcome o := by
  cases o with
  | timeout => rfl
  | connError => rfl
  | status n =>
    simp only [urlErrMsg, badOutcome]
    split_ifs <;> simp_all

theorem flatMap_processUrl (wf : Str → Bool) (probe : Str → ProbeOutcome) :
    ∀ pieces : List Str,
      (∀ u ∈ (pieces.map stripWs).filter (fun c => c ≠ []), wf u = true) →
      pieces.flatMap (processUrl wf probe) =
        ((pieces.map stripWs).filter (fun c => c ≠ [])).filterMap
          (fun u => urlErrMsg u (probe u)) := by
  intro pieces
  induction pieces with
  | nil => intro _; rfl
  | cons p t ih =>
    intro hwf
    by_cases hu : stripWs p = []
    · have h1 : processUrl wf probe p = [] := by
        simp [processUrl, hu]
      have h2 : ((p :: t).map stripWs).filter (fun c => c ≠ []) =
          (t.map stripWs).filter (fun c => c ≠ []) := by
        simp [hu]
      simp only [List.flatMap_cons, h1, List.nil_append, h2] at hwf ⊢
      exact ih hwf
    · have hmem : stripWs p ∈ ((p :: t).map stripWs).filter
          (fun c => c ≠ []) := by
        simp [hu]
      have hwfp : wf (stripWs p) = true := hwf _ hmem
      have h1 : processUrl wf probe p =
          match urlErrMsg (stripWs p) (probe (stripWs p)) with
          | some m => [m]
          | none => [] := by
        simp [processUrl, hu, hwfp]
      have h2 : ((p :: t).map stripWs).filter (fun c => c ≠ []) =
          stripWs p :: (t.map stripWs).filter (fun c => c ≠ []) := by
        simp [hu]
      have ih2 := ih (by
        intro u hu2
        exact hwf u (by
          rw [h2]
          exact List.mem_cons_of_mem _ hu2))
      rw [List.flatMap_cons, h1, h2, List.filterMap_cons, ih2]
      cases urlErrMsg (stripWs p) (probe (stripWs p)) <;> simp

/-- C7: with the `urlparse` test and the probe modelled as inputs, on a
non-blank value all of whose comma-separated components are well-formed
URLs, the validator accepts exactly when no component's probe outcome is
broken (statuses 404/410/500/502/503/504, timeout, connection failure —
every other status passes), and on rejection the message is the
`'; '`-join of the per-URL error messages. -/
theorem c7_url_validation (wf : Str → Bool) (probe : Str → ProbeOutcome)
    (v : Str) (hb : stripWs v ≠ [])
    (hwf : ∀ u ∈ compsOf v, wf u = true) :
    ((validate_course_level_url wf probe (some v)).valid = true ↔
      ∀ u ∈ compsOf v, badOutcome (probe u) = false) ∧
    ((validate_course_level_url wf probe (some v)).valid = false →
      (validate_course_level_url wf probe (some v)).message =
        joinSep (str "; ")
          ((compsOf v).filterMap (fun u => urlErrMsg u (probe u)))) := by
  have hnb : isBlankStripped (some v) = false := by
    simp [isBlankStripped, hb]
  have herr : (splitChar ',' v).flatMap (processUrl wf probe) =
      (compsOf v).filterMap (fun u => urlErrMsg u (probe u)) := by
    have := flatMap_processUrl wf probe
      (splitChar ',' v) (by simpa [compsOf] using hwf)
    simpa [compsOf] using this
  have hval : validate_course_level_url wf probe (some v) =
      (if ((compsOf v).filterMap (fun u => urlErrMsg u (probe u))) ≠ [] then
        ⟨false, joinSep (str "; ")
          ((compsOf v).filterMap (fun u => urlErrMsg u (probe u)))⟩
      else ⟨true, str "All URLs are working"⟩) := by
    simp only [validate_course_level_url, hnb, Bool.false_eq_true, if_false]
    rw [herr]
  constructor
  · rw [hval]
    by_cases hE : (compsOf v).filterMap (fun u => urlErrMsg u (probe u)) = []
    · simp only [hE, ne_eq, not_true_eq_false, if_false]
      constructor
      · intro _ u hu
        have hnone := List.filterMap_eq_nil_iff.mp hE u hu
        have := urlErrMsg_isSome u (probe u)
        rw [hnone] at this
        exact this.symm
      · intro _
        trivial
    · simp only [hE, ne_eq, not_false_eq_true, if_true]
      constructor
      · intro hvt
        simp at hvt
      · intro hall
        exact absurd (List.filterMap_eq_nil_iff.mpr (fun u hu => by
          have := urlErrMsg_isSome u (probe u)
          rw [hall u hu] at this
          exact Option.not_isSome_iff_eq_none.mp (by simp [this]))) hE
  · rw [hval]
    by_cases hE : (compsOf v).filterMap (fun u => urlErrMsg u (probe u)) = []
    · simp [hE]
    · simp [hE]

/-- C7 witness: the theorem instantiated at the two-URL value
`http://a, http://b` probed with one 404 and one 200. -/
theorem c7_url_validation_witness :
    ((validate_course_level_url wfAll probe404a
      (some (str "http://a, http://b"))).valid = true ↔
      ∀ u ∈ compsOf (str "http://a, http://b"),
        badOutcome (probe404a u) = false) ∧
    ((validate_course_level_url wfAll probe404a
      (some (str "http://a, http://b"))).valid = false →
      (validate_course_level_url wfAll probe404a
        (some (str "http://a, http://b"))).message =
        joinSep (str "; ") ((compsOf (str "http://a, http://b")).filterMap
          (fun u => urlErrMsg u (probe404a u)))) :=
  c7_url_validation wfAll probe404a (str "http://a, http://b") (by decide)
    (by decide)
